import Mathlib

/-!
Verification development for the flash tool: a shallow embedding of the
progress aggregator (`src/unnamed/part_000`), the device recognizer and the
`useFastboot` flashing orchestrator (`src/src/pages/index/+Page.jsx`),
together with theorems settling the specification claims.
-/

namespace FlashApp

/-! ## Progress aggregator (`createSteps` / `withProgress`, src/unnamed/part_000) -/

/-- Argument to `createSteps`: either a bare count (`typeof steps === 'number'`)
or an explicit list of numeric weights. -/
inductive StepsArg where
  | count (n : Nat)
  | weights (ws : List ℚ)
deriving DecidableEq

/-- `const stepWeights = typeof steps === 'number' ? Array(steps).fill(1) : steps`. -/
def stepWeightsOf : StepsArg → List ℚ
  | StepsArg.count n => List.replicate n 1
  | StepsArg.weights ws => ws

/-- Mutable state of one aggregator instance: `progressParts` plus the shared
`progress` output cell (at every call site the cell holds 0 when the
aggregator is created, so the initial `out` is 0). -/
structure AggState where
  parts : List ℚ
  out : ℚ
deriving DecidableEq

/-- `stepWeights.reduce((total, weight) => total + weight, 0)`. -/
def totalOf (ws : List ℚ) : ℚ := ws.sum

/-- `stepWeights.reduce((acc, weight, idx) => acc + progressParts[idx] * weight, 0)`. -/
def weightedAvg (parts ws : List ℚ) : ℚ := (List.zipWith (fun p w => p * w) parts ws).sum

/-- The callback returned for task `idx`: if the incoming value differs from
`progressParts[idx]`, record it and recompute `progress = weightedAverage / totalSize`;
otherwise do nothing. -/
def stepCallback (ws : List ℚ) (st : AggState) (idx : Nat) (v : ℚ) : AggState :=
  if st.parts.getD idx 0 = v then st
  else
    let parts := st.parts.set idx v
    { parts := parts, out := weightedAvg parts ws / totalOf ws }

/-- Aggregator state right after `createSteps`: `progressParts` all 0, output cell 0. -/
def initAgg (ws : List ℚ) : AggState := ⟨List.replicate ws.length 0, 0⟩

/-- Run a sequence of per-task updates `(idx, value)` through the callbacks. -/
def runUpdates (ws : List ℚ) (us : List (Nat × ℚ)) : AggState :=
  us.foldl (fun st u => stepCallback ws st u.1 u.2) (initAgg ws)

/-- Specification-side function: the last value reported for task `i`
(initially 0) by an update sequence. -/
def lastReported (us : List (Nat × ℚ)) (i : Nat) : ℚ :=
  us.foldl (fun acc u => if u.1 = i then u.2 else acc) 0

/-- A step passed to `withProgress`: a bare number, or an object with
optional numeric `size` and `length` fields (absent models `undefined`). -/
inductive FlashStep where
  | num (n : ℚ)
  | obj (size : Option ℚ) (len : Option ℚ)
deriving DecidableEq

/-- JavaScript `a || b` on an optional number: `undefined` and `0` are falsy. -/
def jsOr (a : Option ℚ) (b : ℚ) : ℚ :=
  match a with
  | some x => if x = 0 then b else x
  | none => b

/-- `typeof step === 'number' ? step : step.size || step.length || 1`. -/
def jsWeight : FlashStep → ℚ
  | FlashStep.num n => n
  | FlashStep.obj size len => jsOr size (jsOr len 1)

/-- The weight list `withProgress` hands to `createSteps`. -/
def withProgressWeights (steps : List FlashStep) : List ℚ := steps.map jsWeight

/-- Weight function as worded in the claim: the step itself when it is a
number, otherwise `size`, falling back to `length` and finally to 1 when
those are absent or zero. -/
def claimWeight : FlashStep → ℚ
  | FlashStep.num n => n
  | FlashStep.obj size len =>
    match size with
    | some sz =>
      if sz ≠ 0 then sz
      else
        match len with
        | some l => if l ≠ 0 then l else 1
        | none => 1
    | none =>
      match len with
      | some l => if l ≠ 0 then l else 1
      | none => 1

/-! ## Device recognizer (`isRecognizedDevice`, src/src/pages/index/+Page.jsx) -/

/-- `s.startsWith(p)` on the character-list model of strings. -/
def startsWithS (s p : String) : Bool := p.data.isPrefixOf s.data

/-- `s.endsWith(p)` on the character-list model of strings. -/
def endsWithS (s p : String) : Bool := p.data.isSuffixOf s.data

/-- `s.substring(n)`: drop the first `n` characters. -/
def dropS (s : String) (n : Nat) : String := ⟨s.data.drop n⟩

/-- `s.substring(0, s.length - n)`: drop the last `n` characters. -/
def dropRightS (s : String) (n : Nat) : String := ⟨s.data.take (s.data.length - n)⟩

/-- A `DeviceInfo`: association list from variable name to string value
(JavaScript object property access is `lookup`). -/
def getVar (d : List (String × String)) (k : String) : Option String := d.lookup k

/-- The partition-name enumeration of `isRecognizedDevice`: keys starting with
`partition-type:`, slot suffix `_a`/`_b` stripped, deduplicated in order. -/
def derivePartitions (d : List (String × String)) : List String :=
  d.foldl
    (fun acc kv =>
      if startsWithS kv.1 "partition-type:" then
        let p := dropS kv.1 ("partition-type:".length)
        let p := if endsWithS p "_a" || endsWithS p "_b" then dropRightS p 2 else p
        if acc.contains p then acc else acc ++ [p]
      else acc)
    []

/-- The hard-coded expected partition list for a comma three. -/
def expectedPartitions : List String :=
  ["ALIGN_TO_128K_1", "ALIGN_TO_128K_2", "ImageFv", "abl", "aop", "apdp", "bluetooth", "boot", "cache",
   "cdt", "cmnlib", "cmnlib64", "ddr", "devcfg", "devinfo", "dip", "dsp", "fdemeta", "frp", "fsc", "fsg",
   "hyp", "keymaster", "keystore", "limits", "logdump", "logfs", "mdtp", "mdtpsecapp", "misc", "modem",
   "modemst1", "modemst2", "msadp", "persist", "qupfw", "rawdump", "sec", "splash", "spunvm", "ssd",
   "sti", "storsec", "system", "systemrw", "toolsfv", "tz", "userdata", "vm-linux", "vm-system", "xbl",
   "xbl_config"]

/-- `isRecognizedDevice(deviceInfo)`: exact variable checks, partition subset
check, then a truthy `serialno` (missing or empty string is falsy). -/
def isRecognizedDevice (d : List (String × String)) : Bool :=
  if ¬(getVar d "kernel" = some "uefi") ∨ ¬(getVar d "max-download-size" = some "104857600")
      ∨ ¬(getVar d "slot-count" = some "2") then false
  else if ¬((derivePartitions d).all (fun p => expectedPartitions.contains p)) then false
  else
    match getVar d "serialno" with
    | none => false
    | some sn => if sn = "" then false else true

/-! ## Flashing orchestrator (`useFastboot`, src/src/pages/index/+Page.jsx) -/

/-- The `Step` enumeration. -/
def Step.READY : Nat := 0

/-- `CONNECTING` step. -/
def Step.CONNECTING : Nat := 1

/-- `DOWNLOADING` step. -/
def Step.DOWNLOADING : Nat := 2

/-- `UNPACKING` step. -/
def Step.UNPACKING : Nat := 3

/-- `FLASHING` step. -/
def Step.FLASHING : Nat := 4

/-- `ERASING` step. -/
def Step.ERASING : Nat := 5

/-- `DONE` step. -/
def Step.DONE : Nat := 6

/-- The `Error` enumeration (`UNKNOWN`). -/
def Error.UNKNOWN : Int := -1

/-- `NONE` error (no error; JavaScript-falsy 0). -/
def Error.NONE : Int := 0

/-- `UNRECOGNIZED_DEVICE` error. -/
def Error.UNRECOGNIZED_DEVICE : Int := 1

/-- `LOST_CONNECTION` error. -/
def Error.LOST_CONNECTION : Int := 2

/-- `DOWNLOAD_FAILED` error. -/
def Error.DOWNLOAD_FAILED : Int := 3

/-- `UNPACK_FAILED` error. -/
def Error.UNPACK_FAILED : Int := 4

/-- `CHECKSUM_MISMATCH` error. -/
def Error.CHECKSUM_MISMATCH : Int := 5

/-- `FLASH_FAILED` error. -/
def Error.FLASH_FAILED : Int := 6

/-- `ERASE_FAILED` error. -/
def Error.ERASE_FAILED : Int := 7

/-- `REQUIREMENTS_NOT_MET` error. -/
def Error.REQUIREMENTS_NOT_MET : Int := 8

/-- One manifest entry, per the manifest model: name, byte size, sparse flag,
expected checksum (`createManifest` itself is outside the given sources). -/
structure Image where
  name : String
  size : ℚ
  sparse : Bool
  checksum : String
deriving DecidableEq

/-- The mutable session state owned by `useFastboot`: the `$state` cells
`step`, `message`, `progress`, `error`, `isInitialized`, `connected`,
`serial`, `manifest`, plus whether `onRetry` has been installed. -/
structure Session where
  step : Nat
  message : String
  progress : ℚ
  error : Int
  isInitialized : Bool
  connected : Bool
  serial : Option String
  manifest : List Image
  onRetrySet : Bool
deriving DecidableEq

/-- Initial session state: `READY`, no error, progress -1, nothing connected. -/
def initState : Session :=
  { step := Step.READY, message := "", progress := -1, error := Error.NONE,
    isInitialized := false, connected := false, serial := none, manifest := [],
    onRetrySet := false }

/-- Setting `error` to kind `k`: the error effect forces `progress = -1` and
installs `onRetry`, and the stage effect re-runs its prologue (`message = ''`). -/
def errorTo (s : Session) (k : Int) : Session :=
  { s with error := k, progress := -1, message := "", onRetrySet := true }

/-- Synchronous progress value on entering a step: the stage effect prologue
sets `progress = -1`, and the DOWNLOADING/UNPACKING/FLASHING/ERASING cases
immediately set `progress = 0`. -/
def stageEntryProgress (st : Nat) : ℚ :=
  if st = Step.DOWNLOADING ∨ st = Step.UNPACKING ∨ st = Step.FLASHING ∨ st = Step.ERASING
  then 0 else -1

/-- Changing `step`: the stage effect re-runs, resetting `message` and setting
the stage's synchronous progress. -/
def enterStage (s : Session) (st : Nat) : Session :=
  { s with step := st, progress := stageEntryProgress st, message := "" }

/-- Environment observed by one run of `initialize()`: the three capability
probes, worker availability, and the manifest download/parse outcome. -/
structure InitEnv where
  usb : Bool
  worker : Bool
  storage : Bool
  workerPresent : Bool
  manifestResult : Option (List Image)
deriving DecidableEq

/-- `initialize()`: capability checks in order (each failure is
`REQUIREMENTS_NOT_MET`), missing worker returns `false` silently, manifest
fetch/parse failure or an empty manifest maps to `UNKNOWN`; success records
the manifest and sets `isInitialized`. Returns the new state and the
promise's boolean result. -/
def initializeFn (s : Session) (env : InitEnv) : Session × Bool :=
  if s.isInitialized then (s, true)
  else if env.usb = false then (errorTo s Error.REQUIREMENTS_NOT_MET, false)
  else if env.worker = false then (errorTo s Error.REQUIREMENTS_NOT_MET, false)
  else if env.storage = false then (errorTo s Error.REQUIREMENTS_NOT_MET, false)
  else if env.workerPresent = false then (s, false)
  else
    match env.manifestResult with
    | none => (errorTo s Error.UNKNOWN, false)
    | some m =>
      if m.length = 0 then (errorTo s Error.UNKNOWN, false)
      else ({ s with manifest := m, isInitialized := true }, true)

/-- Whether a run of `initialize()` from an uninitialized session succeeds. -/
def initSucceeds (env : InitEnv) : Bool :=
  env.usb && env.worker && env.storage && env.workerPresent &&
    (match env.manifestResult with
     | some m => !m.isEmpty
     | none => false)

/-- `handleContinue`: awaits `initialize()` when not yet initialized, refuses
to proceed when an error is set, otherwise sets `step = CONNECTING`. -/
def handleContinue (s : Session) (env : InitEnv) : Session :=
  let s1 := if s.isInitialized then s else (initializeFn s env).1
  if s1.error = Error.NONE then enterStage s1 Step.CONNECTING else s1

/-- `deviceInfo['serialno'] || 'unknown'`. -/
def serialOf (d : List (String × String)) : String :=
  match d.lookup "serialno" with
  | some v => if v = "" then "unknown" else v
  | none => "unknown"

/-- Possible outcomes of the CONNECTING stage's asynchronous work. -/
inductive ConnOutcome where
  | connected (d : List (String × String))
  | getVarFailed
  | lost
  | connectFailed

/-- CONNECTING stage body: on connect + variable query, run the recognizer
(mismatch is `UNRECOGNIZED_DEVICE`, match records serial, sets `connected`
and advances to DOWNLOADING); variable-query failure is `UNKNOWN`;
`waitForConnect` rejection is `LOST_CONNECTION` with `connected = false`;
`connect()` rejection silently returns to READY. -/
def connectingStage (s : Session) : ConnOutcome → Session
  | ConnOutcome.connected d =>
    if isRecognizedDevice d then
      { enterStage s Step.DOWNLOADING with serial := some (serialOf d), connected := true }
    else errorTo s Error.UNRECOGNIZED_DEVICE
  | ConnOutcome.getVarFailed => errorTo s Error.UNKNOWN
  | ConnOutcome.lost => { errorTo s Error.LOST_CONNECTION with connected := false }
  | ConnOutcome.connectFailed => enterStage s Step.READY

/-- DOWNLOADING stage body resolution: success advances to UNPACKING, any
failure maps to `DOWNLOAD_FAILED`. -/
def downloadStage (s : Session) (ok : Bool) : Session :=
  if ok then enterStage s Step.UNPACKING else errorTo s Error.DOWNLOAD_FAILED

/-- `err.startsWith('Checksum mismatch') ? CHECKSUM_MISMATCH : UNPACK_FAILED`. -/
def unpackErrorKind (err : String) : Int :=
  if startsWithS err "Checksum mismatch" then Error.CHECKSUM_MISMATCH else Error.UNPACK_FAILED

/-- UNPACKING stage body resolution: success advances to FLASHING, a failure
with message `err` maps through `unpackErrorKind`. -/
def unpackStage (s : Session) : Option String → Session
  | none => enterStage s Step.FLASHING
  | some err => errorTo s (unpackErrorKind err)

/-- Commands issued to the fastboot device / image worker during FLASHING. -/
inductive Cmd where
  | getVarCmd (name : String)
  | getImage (name : String)
  | erase (name : String)
  | flashBlob (name : String) (slotHint : String)
  | setActive (slot : String)
deriving DecidableEq

/-- Whether a command mutates the device (erase, flash, or set_active). -/
def isDestructiveCmd : Cmd → Bool
  | Cmd.erase _ => true
  | Cmd.flashBlob _ _ => true
  | Cmd.setActive _ => true
  | _ => false

/-- Whether a command is a `set_active` command. -/
def isSetActiveCmd : Cmd → Bool
  | Cmd.setActive _ => true
  | _ => false

/-- The per-image loop of `flashDevice`: get the unpacked file from the image
worker, `erase:<name>` first only when `image.sparse`, then flash the blob
targeting the 'other' slot. -/
def flashLoop : List Image → List Cmd
  | [] => []
  | img :: rest =>
    Cmd.getImage img.name ::
      ((if img.sparse then [Cmd.erase img.name] else []) ++
        (Cmd.flashBlob img.name "other" :: flashLoop rest))

/-- `flashDevice`: reads `current-slot`, throws `Unknown current slot _` unless
it is `a` or `b`, otherwise runs the per-image loop and finally issues
`set_active:<other slot>`. Returns the command trace issued and the thrown
message, if any. -/
def flashDeviceRun (manifest : List Image) (currentSlot : String) : List Cmd × Option String :=
  if currentSlot = "a" ∨ currentSlot = "b" then
    (Cmd.getVarCmd "current-slot" ::
      (flashLoop manifest ++ [Cmd.setActive (if currentSlot = "a" then "b" else "a")]), none)
  else
    ([Cmd.getVarCmd "current-slot"], some ("Unknown current slot " ++ currentSlot))

/-- FLASHING stage body resolution: if `flashDevice` throws (invalid slot) or
any device operation fails (`devOk = false`), the catch maps it to
`FLASH_FAILED`; otherwise advance to ERASING. -/
def flashingStage (s : Session) (slot : String) (devOk : Bool) : Session :=
  if ((flashDeviceRun s.manifest slot).2).isSome ∨ devOk = false then
    errorTo s Error.FLASH_FAILED
  else enterStage s Step.ERASING

/-- ERASING stage body resolution: success rebooted the device
(`connected = false`) and advances to DONE, failure maps to `ERASE_FAILED`. -/
def eraseStage (s : Session) (ok : Bool) : Session :=
  if ok then { enterStage s Step.DONE with connected := false } else errorTo s Error.ERASE_FAILED

/-- Steps during which asynchronous stage work updates `progress`/`message`
(per-image progress callbacks; the 0.9 and 1 marks in ERASING). -/
def activeProgressSteps : List Nat :=
  [Step.DOWNLOADING, Step.UNPACKING, Step.FLASHING, Step.ERASING]

/-- One observable transition of the session: a run of `initialize()`, a user
`continue()`, a stage body resolving (each stage body only runs while it is
the current step with no error set, and its resolution lands before the next
stage starts), or an in-stage progress/message update. -/
inductive Trans : Session → Session → Prop where
  | init (s : Session) (env : InitEnv) : Trans s (initializeFn s env).1
  | contin (s : Session) (env : InitEnv) : Trans s (handleContinue s env)
  | connecting (s : Session) (o : ConnOutcome) :
      s.step = Step.CONNECTING → s.error = Error.NONE → Trans s (connectingStage s o)
  | downloading (s : Session) (ok : Bool) :
      s.step = Step.DOWNLOADING → s.error = Error.NONE → Trans s (downloadStage s ok)
  | unpacking (s : Session) (f : Option String) :
      s.step = Step.UNPACKING → s.error = Error.NONE → Trans s (unpackStage s f)
  | flashing (s : Session) (slot : String) (devOk : Bool) :
      s.step = Step.FLASHING → s.error = Error.NONE → Trans s (flashingStage s slot devOk)
  | erasing (s : Session) (ok : Bool) :
      s.step = Step.ERASING → s.error = Error.NONE → Trans s (eraseStage s ok)
  | progressUpd (s : Session) (v : ℚ) (msg : String) :
      s.error = Error.NONE → s.step ∈ activeProgressSteps →
      Trans s { s with progress := v, message := msg }

/-- States reachable from the initial session state. -/
def Reachable (s : Session) : Prop := Relation.ReflTransGen Trans initState s

/-! ## Helper lemmas for the progress aggregator -/

theorem getD_set_eq (l : List ℚ) (j : Nat) (v : ℚ) (i : Nat) (hj : j < l.length) :
    (l.set j v).getD i 0 = if j = i then v else l.getD i 0 := by
  induction l generalizing i j with
  | nil => simp at hj
  | cons a as ih =>
    cases j with
    | zero => cases i <;> simp [List.set]
    | succ j =>
      cases i with
      | zero => simp [List.set]
      | succ i =>
        simp only [List.set, List.getD_cons_succ, Nat.succ_eq_add_one, Nat.add_right_cancel_iff]
        exact ih j i (Nat.lt_of_succ_lt_succ hj)

theorem stepCallback_parts_length (ws : List ℚ) (st : AggState) (idx : Nat) (v : ℚ) :
    (stepCallback ws st idx v).parts.length = st.parts.length := by
  unfold stepCallback
  split
  · rfl
  · simp [List.length_set]

theorem stepCallback_parts_getD (ws : List ℚ) (st : AggState) (idx : Nat) (v : ℚ) (i : Nat)
    (h : idx < st.parts.length) :
    (stepCallback ws st idx v).parts.getD i 0 = if idx = i then v else st.parts.getD i 0 := by
  unfold stepCallback
  split
  · rename_i heq
    by_cases hii : idx = i
    · subst hii
      rw [if_pos rfl]
      exact heq
    · rw [if_neg hii]
  · simp only
    exact getD_set_eq st.parts idx v i h

theorem stepCallback_out_inv (ws : List ℚ) (st : AggState) (idx : Nat) (v : ℚ)
    (h : st.out = weightedAvg st.parts ws / totalOf ws) :
    (stepCallback ws st idx v).out = weightedAvg (stepCallback ws st idx v).parts ws / totalOf ws := by
  unfold stepCallback
  split
  · exact h
  · rfl

theorem replicate_getD_zero (n i : Nat) : (List.replicate n (0 : ℚ)).getD i 0 = 0 := by
  induction n generalizing i with
  | zero => simp
  | succ n ih =>
    cases i with
    | zero => simp [List.replicate]
    | succ i => simp only [List.replicate, List.getD_cons_succ]; exact ih i

theorem weightedAvg_replicate_zero (ws : List ℚ) (n : Nat) :
    weightedAvg (List.replicate n 0) ws = 0 := by
  unfold weightedAvg
  induction ws generalizing n with
  | nil => simp
  | cons w ws ih =>
    cases n with
    | zero => simp
    | succ n => simpa [List.replicate] using ih n

theorem weightedAvg_eq_range_sum (ws : List ℚ) :
    ∀ parts : List ℚ, parts.length = ws.length →
      weightedAvg parts ws =
        ((List.range ws.length).map (fun i => parts.getD i 0 * ws.getD i 0)).sum := by
  induction ws with
  | nil =>
    intro parts h
    simp [weightedAvg]
  | cons w ws ih =>
    intro parts h
    cases parts with
    | nil => simp at h
    | cons p ps =>
      simp only [List.length_cons, Nat.add_right_cancel_iff] at h
      have hstep : ∀ i ∈ List.range ws.length,
          ((fun i => (p :: ps).getD i 0 * (w :: ws).getD i 0) ∘ Nat.succ) i =
          (fun i => ps.getD i 0 * ws.getD i 0) i := fun i _ => rfl
      simp only [List.length_cons, List.range_succ_eq_map, List.map_cons, List.map_map,
        List.sum_cons, List.getD_cons_zero]
      rw [List.map_congr_left hstep, ← ih ps h]
      simp [weightedAvg]

theorem runUpdates_foldl_spec (ws : List ℚ) :
    ∀ (us : List (Nat × ℚ)) (st : AggState),
      st.parts.length = ws.length →
      st.out = weightedAvg st.parts ws / totalOf ws →
      (∀ u ∈ us, u.1 < ws.length) →
      (us.foldl (fun acc u => stepCallback ws acc u.1 u.2) st).parts.length = ws.length ∧
      (us.foldl (fun acc u => stepCallback ws acc u.1 u.2) st).out =
        weightedAvg (us.foldl (fun acc u => stepCallback ws acc u.1 u.2) st).parts ws / totalOf ws ∧
      (∀ i : Nat, (us.foldl (fun acc u => stepCallback ws acc u.1 u.2) st).parts.getD i 0 =
        us.foldl (fun a u => if u.1 = i then u.2 else a) (st.parts.getD i 0)) := by
  intro us
  induction us with
  | nil =>
    intro st h1 h2 _
    exact ⟨h1, h2, fun _ => rfl⟩
  | cons u us ih =>
    intro st h1 h2 hin
    have hu : u.1 < ws.length := hin u (by simp)
    have h1' : (stepCallback ws st u.1 u.2).parts.length = ws.length := by
      rw [stepCallback_parts_length]; exact h1
    have h2' := stepCallback_out_inv ws st u.1 u.2 h2
    have hin' : ∀ x ∈ us, x.1 < ws.length := fun x hx => hin x (by simp [hx])
    obtain ⟨g1, g2, g3⟩ := ih (stepCallback ws st u.1 u.2) h1' h2' hin'
    refine ⟨g1, g2, fun i => ?_⟩
    simp only [List.foldl_cons]
    rw [g3 i, stepCallback_parts_getD ws st u.1 u.2 i (h1 ▸ hu)]

/-! ## Claim theorems for the progress aggregator -/

/-- C3: for every weight sequence (a bare count defaulting every weight to 1),
after any sequence of per-task updates the aggregator output equals the
weight-normalized sum of the last value reported per task (initially 0). -/
theorem claim_C3 :
    (∀ n : Nat, stepWeightsOf (StepsArg.count n) = List.replicate n 1) ∧
    (∀ (ws : List ℚ) (us : List (Nat × ℚ)), (∀ u ∈ us, u.1 < ws.length) →
      (runUpdates ws us).out =
        ((List.range ws.length).map (fun i => lastReported us i * ws.getD i 0)).sum / totalOf ws) := by
  constructor
  · intro n; rfl
  · intro ws us hin
    have hlen : (initAgg ws).parts.length = ws.length := by simp [initAgg]
    have hout : (initAgg ws).out = weightedAvg (initAgg ws).parts ws / totalOf ws := by
      simp [initAgg, weightedAvg_replicate_zero]
    obtain ⟨g1, g2, g3⟩ := runUpdates_foldl_spec ws us (initAgg ws) hlen hout hin
    have g1' : (runUpdates ws us).parts.length = ws.length := g1
    have g2' : (runUpdates ws us).out = weightedAvg (runUpdates ws us).parts ws / totalOf ws := g2
    have g3' : ∀ i : Nat, (runUpdates ws us).parts.getD i 0 = lastReported us i := by
      intro i
      unfold runUpdates
      rw [g3 i]
      simp [initAgg, replicate_getD_zero, lastReported]
    rw [g2', weightedAvg_eq_range_sum ws _ g1']
    congr 1
    have hmap : List.map (fun i => (runUpdates ws us).parts.getD i 0 * ws.getD i 0)
        (List.range ws.length) =
        List.map (fun i => lastReported us i * ws.getD i 0) (List.range ws.length) :=
      List.map_congr_left (fun i _ => by rw [g3' i])
    rw [hmap]

/-- C3 witness: two weighted tasks, three updates; the output is the
weight-normalized sum of the last reported values. -/
theorem claim_C3_witness :
    (runUpdates [2, 3] [(0, (1:ℚ)/2), (1, 1), (0, (1:ℚ)/4)]).out =
      ((List.range ([(2:ℚ), 3]).length).map
        (fun i => lastReported [(0, (1:ℚ)/2), (1, 1), (0, (1:ℚ)/4)] i * ([(2:ℚ), 3]).getD i 0)).sum /
        totalOf [2, 3] :=
  claim_C3.2 [2, 3] [(0, (1:ℚ)/2), (1, 1), (0, (1:ℚ)/4)] (by decide)

/-- C9: invoking a progress callback with the task's last recorded value is a
no-op: the aggregator state (parts and output) is unchanged. -/
theorem claim_C9 (ws : List ℚ) (st : AggState) (idx : Nat) (v : ℚ)
    (h : st.parts.getD idx 0 = v) : stepCallback ws st idx v = st := by
  unfold stepCallback
  rw [if_pos h]

/-- C9 witness: repeating the last reported value for task 0 leaves the state
untouched. -/
theorem claim_C9_witness :
    stepCallback [2, 3] ⟨[(1:ℚ)/2, 0], (1:ℚ)/5⟩ 0 ((1:ℚ)/2) = ⟨[(1:ℚ)/2, 0], (1:ℚ)/5⟩ :=
  claim_C9 [2, 3] ⟨[(1:ℚ)/2, 0], (1:ℚ)/5⟩ 0 ((1:ℚ)/2) (by rfl)

/-- C10: `withProgress` weighs a numeric step by itself and an object step by
`size || length || 1`; in particular a zero or missing `size` with no
`length` contributes weight 1, not 0. -/
theorem claim_C10 :
    (∀ steps : List FlashStep, withProgressWeights steps = steps.map claimWeight) ∧
    jsWeight (FlashStep.obj (some 0) none) = 1 ∧
    jsWeight (FlashStep.obj none none) = 1 ∧
    jsWeight (FlashStep.obj (some 0) none) ≠ 0 := by
  have hw : ∀ s : FlashStep, jsWeight s = claimWeight s := by
    intro s
    cases s with
    | num n => rfl
    | obj size len =>
      cases size with
      | none =>
        cases len with
        | none => rfl
        | some l => by_cases hl : l = 0 <;> simp [jsWeight, claimWeight, jsOr, hl]
      | some sz =>
        by_cases hz : sz = 0
        · cases len with
          | none => simp [jsWeight, claimWeight, jsOr, hz]
          | some l => by_cases hl : l = 0 <;> simp [jsWeight, claimWeight, jsOr, hz, hl]
        · cases len with
          | none => simp [jsWeight, claimWeight, jsOr, hz]
          | some l => simp [jsWeight, claimWeight, jsOr, hz]
  refine ⟨?_, by decide, by decide, by decide⟩
  intro steps
  unfold withProgressWeights
  exact List.map_congr_left (fun s _ => hw s)

/-! ## Claim theorems for the device recognizer -/

/-- A DeviceInfo exposing only a strict subset of the expected partitions and
nothing else. -/
def cexDevice : List (String × String) := [("partition-type:boot_a", "raw")]

/-- C2 counterexample: `cexDevice`'s partition set is a strict subset of the
expected list, yet the recognizer rejects it (the kernel/max-download-size/
slot-count and serialno checks also gate acceptance). -/
theorem claim_C2_counterexample :
    ((derivePartitions cexDevice).all (fun p => expectedPartitions.contains p)) = true ∧
    expectedPartitions.contains "cache" = true ∧
    (derivePartitions cexDevice).contains "cache" = false ∧
    isRecognizedDevice cexDevice = false := by decide

/-- C2 (amended): among DeviceInfos that also pass the exact variable checks
and report a non-empty serialno, a partition set inside the expected list is
accepted; and any DeviceInfo whose partition set contains a name outside the
expected list is rejected. -/
theorem claim_C2 :
    (∀ d : List (String × String),
      getVar d "kernel" = some "uefi" →
      getVar d "max-download-size" = some "104857600" →
      getVar d "slot-count" = some "2" →
      (∃ sn, getVar d "serialno" = some sn ∧ sn ≠ "") →
      (∀ p ∈ derivePartitions d, p ∈ expectedPartitions) →
      isRecognizedDevice d = true) ∧
    (∀ (d : List (String × String)) (p : String),
      p ∈ derivePartitions d → p ∉ expectedPartitions →
      isRecognizedDevice d = false) := by
  constructor
  · rintro d hk hm hs ⟨sn, hsn, hne⟩ hsub
    have hall : ((derivePartitions d).all fun p => expectedPartitions.contains p) = true :=
      List.all_eq_true.mpr (fun x hx => List.elem_iff.mpr (hsub x hx))
    simp [isRecognizedDevice, hk, hm, hs, hall, hsn, hne]
    exact hsub
  · intro d p hp hnp
    unfold isRecognizedDevice
    split
    · rfl
    · split
      · rfl
      · rename_i h2
        exfalso
        exact hnp (List.elem_iff.mp (List.all_eq_true.mp (not_not.mp h2) p hp))

/-- A DeviceInfo passing every recognizer check with a strict-subset partition
set. -/
def goodDevice : List (String × String) :=
  [("kernel", "uefi"), ("max-download-size", "104857600"), ("slot-count", "2"),
   ("serialno", "abc123"), ("partition-type:boot_a", "raw"), ("partition-type:boot_b", "raw"),
   ("partition-type:system_a", "ext4")]

/-- `goodDevice` plus one partition outside the expected list. -/
def supersetDevice : List (String × String) := goodDevice ++ [("partition-type:zzz_a", "raw")]

/-- C2 witness: a passing strict-subset device is accepted; adding an
unexpected partition makes it rejected. -/
theorem claim_C2_witness :
    isRecognizedDevice goodDevice = true ∧ isRecognizedDevice supersetDevice = false :=
  ⟨claim_C2.1 goodDevice (by decide) (by decide) (by decide) ⟨"abc123", by decide, by decide⟩
      (by decide),
   claim_C2.2 supersetDevice "zzz" (by decide) (by decide)⟩

/-! ## Claim theorems for the flashing stage -/

theorem flashLoop_eq_bind (m : List Image) :
    flashLoop m = m.flatMap (fun img =>
      Cmd.getImage img.name ::
        ((if img.sparse then [Cmd.erase img.name] else []) ++
          [Cmd.flashBlob img.name "other"])) := by
  induction m with
  | nil => rfl
  | cons img rest ih =>
    simp [flashLoop, ih, List.append_assoc]

theorem flashLoop_countP_setActive (m : List Image) :
    (flashLoop m).countP isSetActiveCmd = 0 := by
  induction m with
  | nil => rfl
  | cons img rest ih =>
    by_cases h : img.sparse <;>
      simp [flashLoop, h, List.countP_cons, List.countP_append, ih, isSetActiveCmd]

/-- C4: with a valid current slot, `flashDevice` throws nothing and issues, per
image in manifest order, the unpacked-file retrieval, an erase exactly when
`image.sparse`, then the flash targeting the other slot; after all images
exactly one `set_active` to the other slot. -/
theorem claim_C4 (m : List Image) (slot : String) (h : slot = "a" ∨ slot = "b") :
    (flashDeviceRun m slot).2 = none ∧
    (flashDeviceRun m slot).1 =
      Cmd.getVarCmd "current-slot" ::
        (m.flatMap (fun img =>
          Cmd.getImage img.name ::
            ((if img.sparse then [Cmd.erase img.name] else []) ++
              [Cmd.flashBlob img.name "other"])) ++
          [Cmd.setActive (if slot = "a" then "b" else "a")]) ∧
    ((flashDeviceRun m slot).1.countP isSetActiveCmd) = 1 := by
  unfold flashDeviceRun
  rw [if_pos h]
  refine ⟨rfl, ?_, ?_⟩
  · rw [flashLoop_eq_bind]
  · simp [List.countP_cons, List.countP_append, flashLoop_countP_setActive, isSetActiveCmd]

/-- A two-image manifest, one sparse and one not. -/
def demoManifest : List Image :=
  [{ name := "boot", size := 100, sparse := false, checksum := "c1" },
   { name := "system", size := 200, sparse := true, checksum := "c2" }]

/-- C4 witness: the flash trace for `demoManifest` with current slot `a`. -/
theorem claim_C4_witness :
    (flashDeviceRun demoManifest "a").2 = none ∧
    (flashDeviceRun demoManifest "a").1 =
      Cmd.getVarCmd "current-slot" ::
        (demoManifest.flatMap (fun img =>
          Cmd.getImage img.name ::
            ((if img.sparse then [Cmd.erase img.name] else []) ++
              [Cmd.flashBlob img.name "other"])) ++
          [Cmd.setActive (if "a" = "a" then "b" else "a")]) ∧
    ((flashDeviceRun demoManifest "a").1.countP isSetActiveCmd) = 1 :=
  claim_C4 demoManifest "a" (Or.inl rfl)

/-- C5: an invalid current slot makes `flashDevice` throw before issuing any
erase, flash, or set_active command, and the stage maps the failure to
`FLASH_FAILED` without advancing the step. -/
theorem claim_C5 (s : Session) (slot : String) (devOk : Bool)
    (h1 : slot ≠ "a") (h2 : slot ≠ "b") (hs : s.step = Step.FLASHING) :
    (flashDeviceRun s.manifest slot).1 = [Cmd.getVarCmd "current-slot"] ∧
    ((flashDeviceRun s.manifest slot).1.all (fun c => !isDestructiveCmd c)) = true ∧
    (flashDeviceRun s.manifest slot).2 = some ("Unknown current slot " ++ slot) ∧
    (flashingStage s slot devOk).error = Error.FLASH_FAILED ∧
    (flashingStage s slot devOk).step = Step.FLASHING := by
  have hcond : ¬(slot = "a" ∨ slot = "b") := by
    rintro (h | h)
    exacts [h1 h, h2 h]
  have hrun : flashDeviceRun s.manifest slot =
      ([Cmd.getVarCmd "current-slot"], some ("Unknown current slot " ++ slot)) := by
    unfold flashDeviceRun
    rw [if_neg hcond]
  have hstage : flashingStage s slot devOk = errorTo s Error.FLASH_FAILED := by
    unfold flashingStage
    rw [hrun]
    simp
  refine ⟨by rw [hrun], by rw [hrun]; rfl, by rw [hrun], by rw [hstage]; rfl, ?_⟩
  rw [hstage]
  exact hs

/-- A session sitting in the FLASHING step with the demo manifest loaded. -/
def flashingSession : Session :=
  { initState with
    step := Step.FLASHING
    isInitialized := true
    connected := true
    serial := some "abc123"
    manifest := demoManifest }

/-- C5 witness: current slot `"c"` in the FLASHING step. -/
theorem claim_C5_witness :
    (flashDeviceRun flashingSession.manifest "c").1 = [Cmd.getVarCmd "current-slot"] ∧
    ((flashDeviceRun flashingSession.manifest "c").1.all (fun c => !isDestructiveCmd c)) = true ∧
    (flashDeviceRun flashingSession.manifest "c").2 = some ("Unknown current slot " ++ "c") ∧
    (flashingStage flashingSession "c" true).error = Error.FLASH_FAILED ∧
    (flashingStage flashingSession "c" true).step = Step.FLASHING :=
  claim_C5 flashingSession "c" true (by decide) (by decide) rfl

/-- C6: an unpack failure maps to `CHECKSUM_MISMATCH` exactly when the message
starts with `Checksum mismatch`, to `UNPACK_FAILED` otherwise, and never
advances the step; the concrete message of Scenario C yields
`CHECKSUM_MISMATCH`. -/
theorem claim_C6 (s : Session) (err : String) :
    (unpackStage s (some err)).error = unpackErrorKind err ∧
    unpackErrorKind err =
      (if startsWithS err "Checksum mismatch" then Error.CHECKSUM_MISMATCH
        else Error.UNPACK_FAILED) ∧
    (unpackStage s (some err)).step = s.step ∧
    (unpackStage s (some "Checksum mismatch: expected abc got def")).error =
      Error.CHECKSUM_MISMATCH ∧
    Error.CHECKSUM_MISMATCH ≠ Error.UNPACK_FAILED := by
  refine ⟨rfl, rfl, rfl, ?_, by decide⟩
  have : unpackErrorKind "Checksum mismatch: expected abc got def" = Error.CHECKSUM_MISMATCH := by
    decide
  simp [unpackStage, errorTo, this]

/-! ## Helper lemmas for the orchestrator state machine -/

theorem initializeFn_step (s : Session) (env : InitEnv) :
    (initializeFn s env).1.step = s.step := by
  unfold initializeFn
  split
  · rfl
  split
  · rfl
  split
  · rfl
  split
  · rfl
  split
  · rfl
  split
  · rfl
  split <;> rfl

theorem initializeFn_error_of_ne (s : Session) (env : InitEnv) (h : s.error ≠ Error.NONE) :
    (initializeFn s env).1.error ≠ Error.NONE := by
  unfold initializeFn
  split
  · exact h
  split
  · exact (by decide : Error.REQUIREMENTS_NOT_MET ≠ Error.NONE)
  split
  · exact (by decide : Error.REQUIREMENTS_NOT_MET ≠ Error.NONE)
  split
  · exact (by decide : Error.REQUIREMENTS_NOT_MET ≠ Error.NONE)
  split
  · exact h
  split
  · exact (by decide : Error.UNKNOWN ≠ Error.NONE)
  split
  · exact (by decide : Error.UNKNOWN ≠ Error.NONE)
  · exact h

theorem initializeFn_of_succ (s : Session) (env : InitEnv) (h : initSucceeds env = true) :
    (initializeFn s env).1.error = s.error ∧ (initializeFn s env).1.isInitialized = true := by
  simp only [initSucceeds, Bool.and_eq_true] at h
  obtain ⟨⟨⟨⟨hu, hw⟩, hst⟩, hwp⟩, hm⟩ := h
  unfold initializeFn
  by_cases hi : s.isInitialized
  · rw [if_pos hi]
    exact ⟨rfl, hi⟩
  · rw [if_neg hi, if_neg (by simp [hu]), if_neg (by simp [hw]), if_neg (by simp [hst]),
      if_neg (by simp [hwp])]
    cases hmr : env.manifestResult with
    | none => rw [hmr] at hm; exact absurd hm (by simp)
    | some m =>
      rw [hmr] at hm
      have hlen : ¬(m.length = 0) := by
        intro h0
        rw [List.length_eq_zero.mp h0] at hm
        exact absurd hm (by decide)
      simp only [hmr]
      rw [if_neg hlen]
      exact ⟨rfl, rfl⟩

theorem handleContinue_step_of_err (s : Session) (env : InitEnv) (h : s.error ≠ Error.NONE) :
    (handleContinue s env).step = s.step := by
  simp only [handleContinue]
  by_cases hi : s.isInitialized
  · rw [if_pos hi, if_neg h]
  · rw [if_neg hi, if_neg (initializeFn_error_of_ne s env h)]
    exact initializeFn_step s env

/-! ## Claim theorems for the orchestrator state machine -/

/-- C1: with no error set, `continue()` moves the step to CONNECTING (in
particular from READY once initialization succeeded); with an error set,
`continue()` leaves the step unchanged; and no transition at all changes the
step while an error is set, so the machine never advances past CONNECTING
with `error != NONE`. -/
theorem claim_C1 :
    (∀ (s : Session) (env : InitEnv), s.step = Step.READY → s.error = Error.NONE →
      initSucceeds env = true →
      (handleContinue s env).step = Step.CONNECTING ∧
      (handleContinue s env).isInitialized = true) ∧
    (∀ (s : Session) (env : InitEnv), s.error ≠ Error.NONE →
      (handleContinue s env).step = s.step) ∧
    (∀ s t : Session, Trans s t → s.error ≠ Error.NONE → t.step = s.step) := by
  refine ⟨?_, handleContinue_step_of_err, ?_⟩
  · intro s env _ herr hsucc
    obtain ⟨he, hi⟩ := initializeFn_of_succ s env hsucc
    simp only [handleContinue]
    by_cases h0 : s.isInitialized
    · rw [if_pos h0, if_pos herr]
      exact ⟨rfl, h0⟩
    · rw [if_neg h0, if_pos (by rw [he, herr])]
      exact ⟨rfl, hi⟩
  · intro s t htr herr
    cases htr with
    | init env => exact initializeFn_step _ env
    | contin env => exact handleContinue_step_of_err _ env herr
    | connecting o h1 h2 => exact absurd h2 herr
    | downloading ok h1 h2 => exact absurd h2 herr
    | unpacking f h1 h2 => exact absurd h2 herr
    | flashing slot devOk h1 h2 => exact absurd h2 herr
    | erasing ok h1 h2 => exact absurd h2 herr
    | progressUpd v msg h1 h2 => exact absurd h1 herr

/-- A fully successful initialization environment. -/
def envGood : InitEnv :=
  { usb := true, worker := true, storage := true, workerPresent := true,
    manifestResult := some demoManifest }

/-- An environment whose WebUSB capability probe fails. -/
def envBad : InitEnv :=
  { usb := false, worker := true, storage := true, workerPresent := true,
    manifestResult := some demoManifest }

/-- A session carrying an error. -/
def errSession : Session := { initState with error := Error.UNKNOWN }

/-- C1 witness: continue() from the fresh state with a good environment lands
in CONNECTING; with an error set, continue() and a raw transition leave the
step where it was. -/
theorem claim_C1_witness :
    ((handleContinue initState envGood).step = Step.CONNECTING ∧
      (handleContinue initState envGood).isInitialized = true) ∧
    (handleContinue errSession envGood).step = errSession.step ∧
    (initializeFn errSession envGood).1.step = errSession.step :=
  ⟨claim_C1.1 initState envGood rfl rfl (by decide),
   claim_C1.2.1 errSession envGood (by decide),
   claim_C1.2.2 errSession (initializeFn errSession envGood).1
     (Trans.init errSession envGood) (by decide)⟩

theorem initializeFn_init_manifest (s : Session) (env : InitEnv)
    (hinv : s.isInitialized = true → s.manifest ≠ []) :
    (initializeFn s env).1.isInitialized = true → (initializeFn s env).1.manifest ≠ [] := by
  unfold initializeFn
  split
  · exact hinv
  split
  · exact hinv
  split
  · exact hinv
  split
  · exact hinv
  split
  · exact hinv
  split
  · exact hinv
  split
  · exact hinv
  · rename_i hm
    intro _ hnil
    exact hm (List.length_eq_zero.mpr hnil)

theorem trans_init_manifest (s t : Session) (htr : Trans s t)
    (hinv : s.isInitialized = true → s.manifest ≠ []) :
    t.isInitialized = true → t.manifest ≠ [] := by
  cases htr with
  | init env => exact initializeFn_init_manifest _ env hinv
  | contin env =>
    simp only [handleContinue]
    by_cases hi : s.isInitialized
    · rw [if_pos hi]
      split
      · exact hinv
      · exact hinv
    · rw [if_neg hi]
      split
      · exact initializeFn_init_manifest _ env hinv
      · exact initializeFn_init_manifest _ env hinv
  | connecting o h1 h2 =>
    cases o with
    | connected d =>
      simp only [connectingStage]
      split
      · exact hinv
      · exact hinv
    | getVarFailed => exact hinv
    | lost => exact hinv
    | connectFailed => exact hinv
  | downloading ok h1 h2 =>
    unfold downloadStage
    split
    · exact hinv
    · exact hinv
  | unpacking f h1 h2 =>
    cases f with
    | none => exact hinv
    | some err => exact hinv
  | flashing slot devOk h1 h2 =>
    unfold flashingStage
    split
    · exact hinv
    · exact hinv
  | erasing ok h1 h2 =>
    unfold eraseStage
    split
    · exact hinv
    · exact hinv
  | progressUpd v msg h1 h2 => exact hinv

/-- C7: an empty parsed manifest makes initialization fail with `UNKNOWN`,
leaving `isInitialized` false and the step unchanged; consequently every
reachable initialized session has a non-empty manifest. -/
theorem claim_C7 :
    (∀ (s : Session) (env : InitEnv),
      s.isInitialized = false → env.usb = true → env.worker = true → env.storage = true →
      env.workerPresent = true → env.manifestResult = some [] →
      (initializeFn s env).1.error = Error.UNKNOWN ∧
      (initializeFn s env).1.isInitialized = false ∧
      (initializeFn s env).1.step = s.step ∧
      (initializeFn s env).2 = false) ∧
    (∀ s : Session, Reachable s → s.isInitialized = true → s.manifest ≠ []) := by
  constructor
  · intro s env hi hu hw hst hwp hm
    unfold initializeFn
    rw [if_neg (by simp [hi]), if_neg (by simp [hu]), if_neg (by simp [hw]),
      if_neg (by simp [hst]), if_neg (by simp [hwp])]
    simp only [hm, List.length_nil, if_pos rfl]
    exact ⟨rfl, hi, rfl, rfl⟩
  · intro s hr
    induction hr with
    | refl => intro h; exact absurd h (by decide)
    | tail _ hstep ih => exact trans_init_manifest _ _ hstep ih

/-- An environment whose manifest parses to the empty list. -/
def envEmpty : InitEnv :=
  { usb := true, worker := true, storage := true, workerPresent := true,
    manifestResult := some [] }

/-- C7 witness: initializing the fresh session against an empty manifest, and
the non-empty-manifest invariant at a concrete initialized reachable state. -/
theorem claim_C7_witness :
    ((initializeFn initState envEmpty).1.error = Error.UNKNOWN ∧
      (initializeFn initState envEmpty).1.isInitialized = false ∧
      (initializeFn initState envEmpty).1.step = initState.step ∧
      (initializeFn initState envEmpty).2 = false) ∧
    (initializeFn initState envGood).1.manifest ≠ [] :=
  ⟨claim_C7.1 initState envEmpty rfl rfl rfl rfl rfl rfl,
   claim_C7.2 (initializeFn initState envGood).1
     (Relation.ReflTransGen.single (Trans.init initState envGood)) (by decide)⟩

theorem initializeFn_err_inv (s : Session) (env : InitEnv)
    (hinv : s.error ≠ Error.NONE → s.progress = -1 ∧ s.onRetrySet = true) :
    (initializeFn s env).1.error ≠ Error.NONE →
      (initializeFn s env).1.progress = -1 ∧ (initializeFn s env).1.onRetrySet = true := by
  unfold initializeFn
  split
  · exact hinv
  split
  · exact fun _ => ⟨rfl, rfl⟩
  split
  · exact fun _ => ⟨rfl, rfl⟩
  split
  · exact fun _ => ⟨rfl, rfl⟩
  split
  · exact hinv
  split
  · exact fun _ => ⟨rfl, rfl⟩
  split
  · exact fun _ => ⟨rfl, rfl⟩
  · exact hinv

theorem trans_err_inv (s t : Session) (htr : Trans s t)
    (hinv : s.error ≠ Error.NONE → s.progress = -1 ∧ s.onRetrySet = true) :
    t.error ≠ Error.NONE → t.progress = -1 ∧ t.onRetrySet = true := by
  cases htr with
  | init env => exact initializeFn_err_inv _ env hinv
  | contin env =>
    simp only [handleContinue]
    by_cases hi : s.isInitialized
    · rw [if_pos hi]
      split
      · rename_i h0
        intro ht
        exact absurd h0 ht
      · exact hinv
    · rw [if_neg hi]
      split
      · rename_i h0
        intro ht
        exact absurd h0 ht
      · exact initializeFn_err_inv _ env hinv
  | connecting o h1 h2 =>
    cases o with
    | connected d =>
      simp only [connectingStage]
      split
      · intro ht
        exact absurd h2 ht
      · exact fun _ => ⟨rfl, rfl⟩
    | getVarFailed => exact fun _ => ⟨rfl, rfl⟩
    | lost => exact fun _ => ⟨rfl, rfl⟩
    | connectFailed =>
      intro ht
      exact absurd h2 ht
  | downloading ok h1 h2 =>
    unfold downloadStage
    split
    · intro ht
      exact absurd h2 ht
    · exact fun _ => ⟨rfl, rfl⟩
  | unpacking f h1 h2 =>
    cases f with
    | none =>
      intro ht
      exact absurd h2 ht
    | some err => exact fun _ => ⟨rfl, rfl⟩
  | flashing slot devOk h1 h2 =>
    unfold flashingStage
    split
    · exact fun _ => ⟨rfl, rfl⟩
    · intro ht
      exact absurd h2 ht
  | erasing ok h1 h2 =>
    unfold eraseStage
    split
    · intro ht
      exact absurd h2 ht
    · exact fun _ => ⟨rfl, rfl⟩
  | progressUpd v msg h1 h2 =>
    intro ht
    exact absurd h1 ht

/-- C8: in every reachable session state with an error set, progress is the
indeterminate sentinel -1 and the retry action is installed. -/
theorem claim_C8 (s : Session) (hr : Reachable s) (herr : s.error ≠ Error.NONE) :
    s.progress = -1 ∧ s.onRetrySet = true := by
  revert herr
  induction hr with
  | refl => intro h; exact absurd h (by decide)
  | tail _ hstep ih => exact trans_err_inv _ _ hstep ih

/-- C8 witness: the state reached by a failed capability check has
indeterminate progress and an available retry action. -/
theorem claim_C8_witness :
    (initializeFn initState envBad).1.progress = -1 ∧
      (initializeFn initState envBad).1.onRetrySet = true :=
  claim_C8 (initializeFn initState envBad).1
    (Relation.ReflTransGen.single (Trans.init initState envBad)) (by decide)

end FlashApp
